import Mathlib

/-!
Shallow embedding of the pass-constraint-and-scheduling engine of
satnogs-auto-scheduler, translated from the Python sources
`auto_scheduler/pass_predictor.py`, `auto_scheduler/schedulers.py` and
`auto_scheduler/utils.py`, together with proofs about the embedded code.

Modelling conventions:
* `datetime` values are rationals counting seconds; `timedelta(seconds=x)`
  becomes adding `x` and `timedelta(minutes=m)` becomes adding `60 * m`.
* Azimuths and elevations are rationals in degrees, holding the value the
  Python code stores after `format(math.degrees(..), '.0f')`.
* Angular separations are rationals (the radian values `ephem.separation`
  returns); `math.radians` is kept as an abstract conversion function.
* The pyephem propagator is external to the repository, so trajectory
  sampling is abstracted by explicit function parameters: `nextPass` for
  `observer.next_pass`, `azdeg` for the formatted azimuth of the satellite
  at an instant, `sep` for the separation between the satellite position
  and the fixed pointing direction at an instant.  The embedding assumes
  `ephem.readtle` succeeds (a well-formed TLE), which is the situation all
  the claims are about.
* The unbounded `while` loops of `find_passes` and
  `constrain_pass_to_az_window` are embedded with an explicit fuel
  parameter; running out of fuel in a sweep yields `none` and in
  `find_passes` yields the passes accumulated so far.
-/

namespace AutoSched

/-- The `transmitter` sub-dictionary of a pass/satellite. -/
structure Transmitter where
  uuid : String
  success_rate : ℚ
  good_count : ℕ
  data_count : ℕ
  mode : String
  deriving Repr, DecidableEq

/-- The `satellite` sub-dictionary attached by `find_constrained_passes`. -/
structure SatInfo where
  name : String
  id : String
  tle1 : String
  tle2 : String
  deriving Repr, DecidableEq

/-- `auto_scheduler.Satellite`: the fields read by the pass predictor. -/
structure Satellite where
  name : String
  id : String
  tle1 : String
  tle2 : String
  transmitter : String
  success_rate : ℚ
  good_count : ℕ
  data_count : ℕ
  mode : String
  deriving Repr, DecidableEq

/-- A satellite pass dictionary (`satpass` in the Python code).  The Python
dict acquires the `satellite` and `priority` keys only later in the
pipeline; here the record always carries them, with `priority = none` and a
placeholder `satellite` until they are assigned. -/
structure SatPass where
  tr : ℚ
  azr : ℚ
  tt : ℚ
  altt : ℚ
  ts : ℚ
  td : ℚ
  azs : ℚ
  transmitter : Transmitter
  satellite : SatInfo
  priority : Option ℚ
  scheduled : Bool
  deriving Repr, DecidableEq

/-- The four interval comparisons of one iteration of the loop in
`overlap` (pass_predictor.py, lines 22-38), for a candidate with effective
endpoints `tr`/`ts` against the scheduled pass `q`, with guard time `g`
(`wait_time_seconds`). -/
def overlapCond (tr ts : ℚ) (q : SatPass) (g : ℚ) : Bool :=
  -- Test pass falls within scheduled pass
  (decide (tr ≥ q.tr) && decide (ts < q.ts + g)) ||
  -- Scheduled pass falls within test pass
  (decide (q.tr ≥ tr) && decide (q.ts + g < ts)) ||
  -- Pass start falls within pass
  (decide (q.tr ≤ tr) && decide (tr < q.ts + g)) ||
  -- Pass end falls within end
  (decide (q.tr ≤ ts) && decide (ts < q.ts + g))

/-- `overlap(satpass, scheduledpasses, wait_time_seconds)` from
pass_predictor.py: the candidate end is inflated by the guard time once,
and the loop with the `overlap_found` flag and early `break` is a
`List.any`. -/
def overlap (satpass : SatPass) (scheduledpasses : List SatPass)
    (wait_time_seconds : ℚ) : Bool :=
  let tr := satpass.tr
  let ts := satpass.ts + wait_time_seconds
  scheduledpasses.any fun q => overlapCond tr ts q wait_time_seconds

/-- `ordered_scheduler(passes, scheduledpasses, wait_time_seconds)` from
schedulers.py: append every pass that does not overlap the reservations
accumulated so far. -/
def ordered_scheduler (passes scheduledpasses : List SatPass)
    (wait_time_seconds : ℚ) : List SatPass :=
  match passes with
  | [] => scheduledpasses
  | satpass :: rest =>
    if overlap satpass scheduledpasses wait_time_seconds then
      ordered_scheduler rest scheduledpasses wait_time_seconds
    else
      ordered_scheduler rest (scheduledpasses ++ [satpass]) wait_time_seconds

/-- `report_efficiency(scheduledpasses, passes)` from schedulers.py.  The
function only logs; the embedding returns the three logged quantities
(total scheduled seconds, total covered seconds, efficiency percentage),
and `none` in the empty case, where the Python code logs
"No appropriate passes found for scheduling." without dividing. -/
def report_efficiency (scheduledpasses : List SatPass) : Option (ℚ × ℚ × ℚ) :=
  match scheduledpasses with
  | [] => none
  | satpass :: rest =>
    let init : ℚ × ℚ × ℚ := (satpass.ts - satpass.tr, satpass.tr, satpass.ts)
    let acc := rest.foldl
      (fun (acc : ℚ × ℚ × ℚ) q =>
        (acc.1 + (q.ts - q.tr),
         if q.tr < acc.2.1 then q.tr else acc.2.1,
         if q.ts > acc.2.2 then q.ts else acc.2.2))
      init
    let duration_total := acc.2.2 - acc.2.1
    some (acc.1, duration_total, 100 * acc.1 / duration_total)

/-- `check_az_in_window(azimuth, start_azimuth, stop_azimuth)` from
pass_predictor.py: windows wrapping through zero degrees are handled by
swapping the bounds and inverting the membership result. -/
def check_az_in_window (azimuth start_azimuth stop_azimuth : ℚ) : Bool :=
  let swapped :=
    if start_azimuth > stop_azimuth then
      (true, stop_azimuth, start_azimuth)
    else
      (false, start_azimuth, stop_azimuth)
  let complementary_window := swapped.1
  if swapped.2.1 ≤ azimuth ∧ azimuth ≤ swapped.2.2 then
    !complementary_window
  else
    complementary_window

/-- `constrain_pass_to_max_observation_duration(satpass, max_pass_duration,
tmin, tmax)` from pass_predictor.py; `max_pass_duration` is in minutes. -/
def constrain_pass_to_max_observation_duration (satpass : SatPass)
    (max_pass_duration tmin tmax : ℚ) : SatPass :=
  let max_duration := 60 * max_pass_duration
  if satpass.td > max_duration then
    let half := (satpass.td - max_duration) / 2
    let satpass :=
      if satpass.tr + half ≥ tmin ∧ satpass.ts - half ≤ tmax then
        { satpass with tr := satpass.tr + half, ts := satpass.ts - half }
      else
        let ts' := min satpass.ts tmax
        { satpass with ts := ts', tr := ts' - max_duration }
    { satpass with td := satpass.ts - satpass.tr }
  else
    satpass

/-- One iteration step plus recursion for the first `while` loop of
`constrain_pass_to_az_window` (sweeping the pass start forward).  Per
iteration the code recomputes the rise azimuth at `tr`, advances `tr` by
the one-second `sweep_step_size` when the azimuth is outside the window,
and returns `None` when the (pre-advance) duration drops below the
minimum.  `min_pass_duration` is in minutes.  Fuel exhaustion yields
`none`. -/
def az_sweep_rise (azdeg : ℚ → ℚ) (start_azimuth stop_azimuth : ℚ)
    (min_pass_duration : ℚ) : ℕ → SatPass → Option SatPass
  | 0, _ => none
  | fuel + 1, satpass =>
    let satpass := { satpass with azr := azdeg satpass.tr }
    let pass_duration := satpass.ts - satpass.tr
    let azr_within_window :=
      check_az_in_window satpass.azr start_azimuth stop_azimuth
    let satpass :=
      if azr_within_window then satpass
      else { satpass with tr := satpass.tr + 1 }
    if pass_duration < 60 * min_pass_duration then none
    else if azr_within_window then some satpass
    else az_sweep_rise azdeg start_azimuth stop_azimuth min_pass_duration fuel satpass

/-- The second `while` loop of `constrain_pass_to_az_window` (sweeping the
pass end backward).  The duration used for the floor check and stored in
`td` is the one computed before this iteration's one-second decrement. -/
def az_sweep_set (azdeg : ℚ → ℚ) (start_azimuth stop_azimuth : ℚ)
    (min_pass_duration : ℚ) : ℕ → SatPass → Option SatPass
  | 0, _ => none
  | fuel + 1, satpass =>
    let satpass := { satpass with azs := azdeg satpass.ts }
    let azs_within_window :=
      check_az_in_window satpass.azs start_azimuth stop_azimuth
    let pass_duration := satpass.ts - satpass.tr
    let satpass :=
      if azs_within_window then satpass
      else { satpass with ts := satpass.ts - 1 }
    if pass_duration < 60 * min_pass_duration then none
    else
      let satpass := { satpass with td := pass_duration }
      if azs_within_window then some satpass
      else az_sweep_set azdeg start_azimuth stop_azimuth min_pass_duration fuel satpass

/-- `constrain_pass_to_az_window(satellite, observer, satpass,
start_azimuth, stop_azimuth, min_pass_duration)` from pass_predictor.py:
the forward sweep of the start then the backward sweep of the end.
`azdeg` abstracts the recomputed satellite azimuth (in formatted degrees)
at an instant. -/
def constrain_pass_to_az_window (azdeg : ℚ → ℚ) (satpass : SatPass)
    (start_azimuth stop_azimuth min_pass_duration : ℚ) (fuel : ℕ) :
    Option SatPass :=
  match az_sweep_rise azdeg start_azimuth stop_azimuth min_pass_duration fuel satpass with
  | none => none
  | some satpass =>
    az_sweep_set azdeg start_azimuth stop_azimuth min_pass_duration fuel satpass

/-- The 127 sample instants of `constrain_pass_to_angular_separation`:
`satpass['tr'] + x * (satpass['ts'] - satpass['tr']) / (num_steps - 1)` for
`x in range(num_steps)` with `num_steps = 127`. -/
def sampleTimes (satpass : SatPass) : List ℚ :=
  (List.range 127).map fun x : ℕ =>
    satpass.tr + (x : ℚ) * (satpass.ts - satpass.tr) / 126

/-- The `min_separation` accumulation loop of
`constrain_pass_to_angular_separation`: starting from the sentinel `10`
(more than 2*pi radians, i.e. the whole sky), keep the smaller of the
accumulator and each sampled separation.  `sep` abstracts
`ephem.separation((pointing_az, pointing_el), (sat.az, sat.alt))` at an
instant, in radians. -/
def min_separation_of (sep : ℚ → ℚ) (satpass : SatPass) : ℚ :=
  (sampleTimes satpass).foldl
    (fun min_separation t =>
      if sep t < min_separation then sep t else min_separation)
    10

/-- `constrain_pass_to_angular_separation(satellite, observer, satpass,
angular_separation)` from pass_predictor.py.  `angular_separation` is the
`(max_separation, pointing_az, pointing_el)` triple; the pointing
direction is already captured inside `sep`.  The Python guard
`if max_separation:` is falsy both for `None` and for `0.0`.  `radians`
abstracts `math.radians`. -/
def constrain_pass_to_angular_separation (sep : ℚ → ℚ) (radians : ℚ → ℚ)
    (angular_separation : Option ℚ × ℚ × ℚ) (satpass : SatPass) :
    Option SatPass :=
  let max_separation := angular_separation.1
  let truthy := match max_separation with
    | none => false
    | some m => m ≠ 0
  if truthy then
    if min_separation_of sep satpass > radians (max_separation.getD 0) then
      none
    else
      some satpass
  else
    some satpass

/-- The tuple returned by one `observer.next_pass(sat_ephem)` call, with
azimuths/elevation already converted to degrees and formatted.  A `none`
result stands for any of the loop-terminating outcomes of `find_passes`
(`tr is None`, propagation errors, no next pass). -/
structure PassEvent where
  tr : ℚ
  azr : ℚ
  tt : ℚ
  altt : ℚ
  ts : ℚ
  azs : ℚ
  deriving Repr, DecidableEq

/-- The `satpass` dictionary built by `find_passes` for one accepted
event. -/
def mkFindPass (e : PassEvent) (satellite : Satellite) : SatPass :=
  { tr := e.tr
    azr := e.azr
    tt := e.tt
    altt := e.altt
    ts := e.ts
    td := e.ts - e.tr
    azs := e.azs
    transmitter :=
      { uuid := satellite.transmitter
        success_rate := satellite.success_rate
        good_count := satellite.good_count
        data_count := satellite.data_count
        mode := satellite.mode }
    satellite := { name := "", id := "", tle1 := "", tle2 := "" }
    priority := none
    scheduled := false }

/-- The `while True` loop of `find_passes`: at observer date `date`, ask
for the next pass; stop on `none` or once the rise time leaves the search
range; keep the pass when the culmination elevation, the `tr < ts` check
and the strict minimum-duration check all hold; continue from one minute
after the set time. -/
def find_passes_loop (nextPass : ℚ → Option PassEvent) (satellite : Satellite)
    (tmax minimum_altitude min_pass_duration : ℚ) :
    ℕ → ℚ → List SatPass → List SatPass
  | 0, _, passes => passes
  | fuel + 1, date, passes =>
    match nextPass date with
    | none => passes
    | some e =>
      if ¬ e.tr < tmax then passes
      else
        let passes :=
          if e.altt ≥ minimum_altitude ∧ e.tr < e.ts ∧
              e.ts - e.tr > 60 * min_pass_duration then
            passes ++ [mkFindPass e satellite]
          else passes
        find_passes_loop nextPass satellite tmax minimum_altitude
          min_pass_duration fuel (e.ts + 60) passes

/-- `find_passes(satellite, observer, tmin, tmax, minimum_altitude,
min_pass_duration)` from pass_predictor.py. -/
def find_passes (nextPass : ℚ → Option PassEvent) (satellite : Satellite)
    (tmin tmax minimum_altitude min_pass_duration : ℚ) (fuel : ℕ) :
    List SatPass :=
  find_passes_loop nextPass satellite tmax minimum_altitude min_pass_duration
    fuel tmin []

/-- The constraints dictionary consumed by `find_constrained_passes`. -/
structure Constraints where
  tmin : ℚ
  tmax : ℚ
  min_pass_duration : ℚ
  max_pass_duration : ℚ
  start_azimuth : ℚ
  stop_azimuth : ℚ
  min_culmination : ℚ
  angular_separation : Option ℚ × ℚ × ℚ
  deriving Repr

/-- The `satpass.update({...})` call at the end of
`find_constrained_passes`: attach the satellite dictionary, overwrite the
transmitter dictionary, reset `scheduled`. -/
def annotate (satpass : SatPass) (satellite : Satellite) : SatPass :=
  { satpass with
    satellite :=
      { name := satellite.name
        id := satellite.id
        tle1 := satellite.tle1
        tle2 := satellite.tle2 }
    transmitter :=
      { uuid := satellite.transmitter
        success_rate := satellite.success_rate
        good_count := satellite.good_count
        data_count := satellite.data_count
        mode := satellite.mode }
    scheduled := false }

/-- The per-pass body of the `find_constrained_passes` loop: the
azimuth-window constraint, then the angular-separation constraint (each
may reject, modelled by `none`, which the loop turns into `continue`),
then the always-succeeding maximum-duration constraint. -/
def apply_constraints (azdeg sep radians : ℚ → ℚ) (c : Constraints)
    (fuel : ℕ) (satpass : SatPass) : Option SatPass :=
  match constrain_pass_to_az_window azdeg satpass c.start_azimuth
      c.stop_azimuth c.min_pass_duration fuel with
  | none => none
  | some satpass =>
    match constrain_pass_to_angular_separation sep radians
        c.angular_separation satpass with
    | none => none
    | some satpass =>
      some (constrain_pass_to_max_observation_duration satpass
        c.max_pass_duration c.tmin c.tmax)

/-- `find_constrained_passes(satellite, observer, constraints)` from
pass_predictor.py: discovery, then per pass the constraint chain
(`apply_constraints`), then the annotation update on the survivors. -/
def find_constrained_passes (nextPass : ℚ → Option PassEvent)
    (azdeg : ℚ → ℚ) (sep : ℚ → ℚ) (radians : ℚ → ℚ)
    (satellite : Satellite) (c : Constraints) (fuel : ℕ) : List SatPass :=
  let satellite_passes := find_passes nextPass satellite c.tmin c.tmax
    c.min_culmination c.min_pass_duration fuel
  satellite_passes.foldl
    (fun selected_passes satpass =>
      match apply_constraints azdeg sep radians c fuel satpass with
      | none => selected_passes
      | some satpass => selected_passes ++ [annotate satpass satellite])
    []

/-- The priority-match test of `get_priority_passes` (utils.py): the
satellite id is a key of `priorities`, the pass transmitter is the
satellite's favourite transmitter, and the assigned priority reaches
`min_priority`.  `priorities` is a partial map; `favorite_transmitters`
is total on the ids that occur (the Python code indexes it without a
membership check). -/
def priorityMatch (priorities : String → Option ℚ)
    (favorite_transmitters : String → String) (min_priority : ℚ)
    (satpass : SatPass) : Bool :=
  match priorities satpass.satellite.id with
  | none => false
  | some v =>
    satpass.transmitter.uuid == favorite_transmitters satpass.satellite.id &&
    decide (v ≥ min_priority)

/-- `max(s['transmitter']['good_count'] for s in passes if
s['satellite']['id'] == satpass['satellite']['id'])`: the largest good
count over all candidate passes of the same satellite.  (In the code the
generator is nonempty because `satpass` itself is a member of `passes`,
so folding from `0` over natural numbers agrees with Python's `max`.) -/
def max_good_count (passes : List SatPass) (satpass : SatPass) : ℕ :=
  ((passes.filter fun s => s.satellite.id == satpass.satellite.id).map
    fun s => s.transmitter.good_count).foldl max 0

/-- The score assigned to a pass in the `elif only_priority:` branch of
`get_priority_passes`. -/
def normalScore (passes : List SatPass) (satpass : SatPass) : ℚ :=
  let mgc := max_good_count passes satpass
  if mgc > 0 then
    satpass.altt / 90 * satpass.transmitter.success_rate *
      satpass.transmitter.good_count / mgc
  else
    satpass.altt / 90 * satpass.transmitter.success_rate

/-- The pass as it is appended to the priority bucket: priority assigned
from the map, transmitter uuid overwritten with the favourite. -/
def promotePass (priorities : String → Option ℚ)
    (favorite_transmitters : String → String) (satpass : SatPass) : SatPass :=
  { satpass with
    priority := priorities satpass.satellite.id
    transmitter :=
      { satpass.transmitter with
        uuid := favorite_transmitters satpass.satellite.id } }

/-- The loop body of `get_priority_passes`, recursing over the remaining
passes while `allPasses` stays the full input list (the `max_good_count`
generator ranges over it).  Appending to the two Python lists in input
order is the same as consing onto the recursive results. -/
def gpp_loop (allPasses : List SatPass) (priorities : String → Option ℚ)
    (favorite_transmitters : String → String) (only_priority : Bool)
    (min_priority : ℚ) : List SatPass → List SatPass × List SatPass
  | [] => ([], [])
  | satpass :: rest =>
    let acc := gpp_loop allPasses priorities favorite_transmitters
      only_priority min_priority rest
    if priorityMatch priorities favorite_transmitters min_priority satpass then
      (promotePass priorities favorite_transmitters satpass :: acc.1, acc.2)
    else if only_priority then
      let score := normalScore allPasses satpass
      let satpass := { satpass with priority := some score }
      if score ≥ min_priority then (acc.1, satpass :: acc.2)
      else acc
    else acc

/-- `get_priority_passes(passes, priorities, favorite_transmitters,
only_priority, min_priority)` from utils.py. -/
def get_priority_passes (passes : List SatPass)
    (priorities : String → Option ℚ)
    (favorite_transmitters : String → String) (only_priority : Bool)
    (min_priority : ℚ) : List SatPass × List SatPass :=
  gpp_loop passes priorities favorite_transmitters only_priority min_priority
    passes

/-- Modelled from the spec (for claim C2 only): the overlap test as the
claim describes it, with the guard time inflating each reservation's
`set_time` in the four comparisons while the candidate's own `set_time`
enters every comparison unmodified. -/
def overlapClaimC2 (satpass : SatPass) (scheduledpasses : List SatPass)
    (wait_time_seconds : ℚ) : Bool :=
  let tr := satpass.tr
  let ts := satpass.ts
  scheduledpasses.any fun q => overlapCond tr ts q wait_time_seconds

/-- A pass with only the interval data filled in, used for concrete
instances. -/
def simplePass (tr ts : ℚ) : SatPass :=
  { tr := tr
    azr := 0
    tt := 0
    altt := 0
    ts := ts
    td := ts - tr
    azs := 0
    transmitter := { uuid := "", success_rate := 0, good_count := 0,
                     data_count := 0, mode := "" }
    satellite := { name := "", id := "", tle1 := "", tle2 := "" }
    priority := none
    scheduled := false }

theorem overlapCond_eq_true_iff {tr ts g : ℚ} {q : SatPass} :
    overlapCond tr ts q g = true ↔
      (tr ≥ q.tr ∧ ts < q.ts + g) ∨ (q.tr ≥ tr ∧ q.ts + g < ts) ∨
      (q.tr ≤ tr ∧ tr < q.ts + g) ∨ (q.tr ≤ ts ∧ ts < q.ts + g) := by
  simp only [overlapCond, Bool.or_eq_true, Bool.and_eq_true, decide_eq_true_eq,
    ge_iff_le, or_assoc]

theorem overlap_eq_true_iff {p : SatPass} {R : List SatPass} {g : ℚ} :
    overlap p R g = true ↔
      ∃ q ∈ R, overlapCond p.tr (p.ts + g) q g = true := by
  simp [overlap, List.any_eq_true]

/-- C1 (amended): with a non-negative guard time and genuine intervals, a
candidate rising exactly at the reservation's guarded end does not
overlap, and a candidate whose guarded end is strictly before the
reservation's rise does not overlap; but a candidate whose guarded end
touches the reservation's rise DOES overlap (the reservation-start
comparisons use `<=`), so with guard 0 a candidate setting at 10:09:00
against a reservation rising at 10:09:00 yields true, not false. -/
theorem overlap_touching_boundaries (cand res : SatPass) (g : ℚ)
    (hg : 0 ≤ g) (hc : cand.tr < cand.ts) (hr : res.tr < res.ts) :
    (cand.tr = res.ts + g → overlap cand [res] g = false) ∧
    (cand.ts + g < res.tr → overlap cand [res] g = false) ∧
    (cand.ts + g = res.tr → overlap cand [res] g = true) := by
  refine ⟨fun h => ?_, fun h => ?_, fun h => ?_⟩
  · rw [Bool.eq_false_iff]
    intro hov
    obtain ⟨q, hq, hcond⟩ := overlap_eq_true_iff.1 hov
    simp only [List.mem_singleton] at hq
    subst hq
    rcases overlapCond_eq_true_iff.1 hcond with ⟨_, h2⟩ | ⟨h1, _⟩ | ⟨_, h2⟩ | ⟨_, h2⟩ <;>
      linarith
  · rw [Bool.eq_false_iff]
    intro hov
    obtain ⟨q, hq, hcond⟩ := overlap_eq_true_iff.1 hov
    simp only [List.mem_singleton] at hq
    subst hq
    rcases overlapCond_eq_true_iff.1 hcond with ⟨h1, _⟩ | ⟨_, h2⟩ | ⟨h1, _⟩ | ⟨h1, h2⟩ <;>
      linarith
  · refine overlap_eq_true_iff.2 ⟨res, List.mem_singleton.2 rfl, ?_⟩
    refine overlapCond_eq_true_iff.2 (Or.inr (Or.inr (Or.inr ⟨by linarith, by linarith⟩)))

/-- C1 counterexample: the claim's own concrete example fails on the
code; a candidate from 10:00:00 to 10:09:00 (seconds 0 to 540) against a
reservation from 10:09:00 to 10:20:00 (seconds 540 to 1200) with guard 0
makes `overlap` return true, not false. -/
theorem overlap_touching_boundaries_counterexample :
    overlap (simplePass 0 540) [simplePass 540 1200] 0 = true := by
  norm_num [overlap, overlapCond, simplePass]

theorem overlap_touching_boundaries_witness :
    (0 : ℚ) ≤ 0 ∧ (simplePass 0 540).tr < (simplePass 0 540).ts ∧
      (simplePass 600 1200).tr < (simplePass 600 1200).ts ∧
      ((simplePass 0 540).tr = (simplePass 600 1200).ts + 0 →
        overlap (simplePass 0 540) [simplePass 600 1200] 0 = false) ∧
      ((simplePass 0 540).ts + 0 < (simplePass 600 1200).tr →
        overlap (simplePass 0 540) [simplePass 600 1200] 0 = false) ∧
      ((simplePass 0 540).ts + 0 = (simplePass 600 1200).tr →
        overlap (simplePass 0 540) [simplePass 600 1200] 0 = true) := by
  refine ⟨le_refl 0, by norm_num [simplePass], by norm_num [simplePass], ?_⟩
  have h := overlap_touching_boundaries (simplePass 0 540) (simplePass 600 1200) 0
    (le_refl 0) (by norm_num [simplePass]) (by norm_num [simplePass])
  exact ⟨h.1, h.2.1, h.2.2⟩

/-- C2 (amended): the guard time inflates the candidate's own `set_time`
(once, before the loop) as well as each reservation's `set_time` in the
four comparisons; the two rise times enter unmodified.  Stated as a
characterization of `overlap` with both inflations explicit. -/
theorem overlap_guard_both_ends (p : SatPass) (R : List SatPass) (g : ℚ) :
    overlap p R g = true ↔
      ∃ q ∈ R,
        (p.tr ≥ q.tr ∧ p.ts + g < q.ts + g) ∨
        (q.tr ≥ p.tr ∧ q.ts + g < p.ts + g) ∨
        (q.tr ≤ p.tr ∧ p.tr < q.ts + g) ∨
        (q.tr ≤ p.ts + g ∧ p.ts + g < q.ts + g) := by
  rw [overlap_eq_true_iff]
  refine exists_congr fun q => and_congr_right fun _ => overlapCond_eq_true_iff

/-- C2 counterexample: `overlap` disagrees with the claim's description
(candidate `set_time` not inflated) on a candidate [0, 10], a reservation
[20, 30] and guard 15: the code finds an overlap (the candidate's
inflated end 25 falls inside the reservation's inflated interval), while
the claim's version finds none. -/
theorem overlap_guard_both_ends_counterexample :
    overlap (simplePass 0 10) [simplePass 20 30] 15 = true ∧
    overlapClaimC2 (simplePass 0 10) [simplePass 20 30] 15 = false := by
  constructor
  · norm_num [overlap, overlapCond, simplePass]
  · norm_num [overlapClaimC2, overlapCond, simplePass]

/-- C7 (confirmed): a window with `start_azimuth > stop_azimuth` wraps
through 0/360 degrees, implemented by testing the swapped (complementary)
arc as a normal window and inverting the result; the window (350, 10)
accepts azimuth 5 and rejects azimuth 180. -/
theorem check_az_in_window_wrapping (az start stop : ℚ) (h : start > stop) :
    check_az_in_window az start stop = !check_az_in_window az stop start ∧
    check_az_in_window 5 350 10 = true ∧
    check_az_in_window 180 350 10 = false := by
  refine ⟨?_, by norm_num [check_az_in_window], by norm_num [check_az_in_window]⟩
  have h' : ¬ stop > start := not_lt.2 h.le
  by_cases hmem : stop ≤ az ∧ az ≤ start
  · simp [check_az_in_window, if_pos h, if_neg h', hmem]
  · simp [check_az_in_window, if_pos h, if_neg h', hmem]

theorem check_az_in_window_wrapping_witness :
    (350 : ℚ) > 10 ∧
      (check_az_in_window 5 350 10 = !check_az_in_window 5 10 350 ∧
       check_az_in_window 5 350 10 = true ∧
       check_az_in_window 180 350 10 = false) :=
  ⟨by norm_num, check_az_in_window_wrapping 5 350 10 (by norm_num)⟩

/-- C5 (confirmed): the maximum-duration constraint always returns a pass;
it is the identity when the duration is within the limit, and otherwise
produces a pass of duration exactly `max_duration`, by the symmetric
shrink when both shrunk endpoints stay within [tmin, tmax] and by the
clamp-to-tmax fallback otherwise, with the stored duration recomputed
from the final rise/set times.  (`max_pass_duration` is in minutes, hence
the factor 60; the duration field is assumed in sync with the endpoints,
as the pipeline maintains.) -/
theorem constrain_max_duration_spec (p : SatPass) (maxd tmin tmax : ℚ)
    (hcons : p.td = p.ts - p.tr) :
    (p.td ≤ 60 * maxd →
      constrain_pass_to_max_observation_duration p maxd tmin tmax = p) ∧
    (p.td > 60 * maxd →
      (constrain_pass_to_max_observation_duration p maxd tmin tmax).td
          = 60 * maxd ∧
      (constrain_pass_to_max_observation_duration p maxd tmin tmax).ts -
          (constrain_pass_to_max_observation_duration p maxd tmin tmax).tr
          = 60 * maxd ∧
      (p.tr + (p.td - 60 * maxd) / 2 ≥ tmin ∧
          p.ts - (p.td - 60 * maxd) / 2 ≤ tmax →
        constrain_pass_to_max_observation_duration p maxd tmin tmax =
          { p with tr := p.tr + (p.td - 60 * maxd) / 2,
                   ts := p.ts - (p.td - 60 * maxd) / 2,
                   td := 60 * maxd }) ∧
      (¬ (p.tr + (p.td - 60 * maxd) / 2 ≥ tmin ∧
          p.ts - (p.td - 60 * maxd) / 2 ≤ tmax) →
        constrain_pass_to_max_observation_duration p maxd tmin tmax =
          { p with ts := min p.ts tmax,
                   tr := min p.ts tmax - 60 * maxd,
                   td := 60 * maxd })) := by
  constructor
  · intro hle
    have : ¬ p.td > 60 * maxd := not_lt.2 hle
    simp [constrain_pass_to_max_observation_duration, this]
  · intro hgt
    by_cases hfit : p.tr + (p.td - 60 * maxd) / 2 ≥ tmin ∧
        p.ts - (p.td - 60 * maxd) / 2 ≤ tmax
    · have hres : constrain_pass_to_max_observation_duration p maxd tmin tmax =
          { p with tr := p.tr + (p.td - 60 * maxd) / 2,
                   ts := p.ts - (p.td - 60 * maxd) / 2,
                   td := 60 * maxd } := by
        simp only [constrain_pass_to_max_observation_duration, if_pos hgt,
          if_pos hfit]
        congr 1
        rw [hcons]
        ring
      refine ⟨by rw [hres], by rw [hres]; dsimp; rw [hcons]; ring, fun _ => hres,
        fun hno => absurd hfit hno⟩
    · have hres : constrain_pass_to_max_observation_duration p maxd tmin tmax =
          { p with ts := min p.ts tmax,
                   tr := min p.ts tmax - 60 * maxd,
                   td := 60 * maxd } := by
        simp only [constrain_pass_to_max_observation_duration, if_pos hgt,
          if_neg hfit]
        congr 1
        ring
      refine ⟨by rw [hres], by rw [hres]; dsimp; ring, fun hyes => absurd hyes hfit,
        fun _ => hres⟩

theorem constrain_max_duration_spec_witness :
    (simplePass 0 2400).td = (simplePass 0 2400).ts - (simplePass 0 2400).tr ∧
      ((simplePass 0 2400).td ≤ 60 * 10 →
        constrain_pass_to_max_observation_duration (simplePass 0 2400) 10 0
          100000 = simplePass 0 2400) ∧
      ((simplePass 0 2400).td > 60 * 10 →
        (constrain_pass_to_max_observation_duration (simplePass 0 2400) 10 0
          100000).td = 60 * 10 ∧
        (constrain_pass_to_max_observation_duration (simplePass 0 2400) 10 0
            100000).ts -
          (constrain_pass_to_max_observation_duration (simplePass 0 2400) 10 0
            100000).tr = 60 * 10 ∧
        ((simplePass 0 2400).tr + ((simplePass 0 2400).td - 60 * 10) / 2 ≥ 0 ∧
            (simplePass 0 2400).ts - ((simplePass 0 2400).td - 60 * 10) / 2 ≤
              100000 →
          constrain_pass_to_max_observation_duration (simplePass 0 2400) 10 0
            100000 =
            { simplePass 0 2400 with
              tr := (simplePass 0 2400).tr +
                ((simplePass 0 2400).td - 60 * 10) / 2,
              ts := (simplePass 0 2400).ts -
                ((simplePass 0 2400).td - 60 * 10) / 2,
              td := 60 * 10 }) ∧
        (¬ ((simplePass 0 2400).tr + ((simplePass 0 2400).td - 60 * 10) / 2 ≥ 0 ∧
            (simplePass 0 2400).ts - ((simplePass 0 2400).td - 60 * 10) / 2 ≤
              100000) →
          constrain_pass_to_max_observation_duration (simplePass 0 2400) 10 0
            100000 =
            { simplePass 0 2400 with
              ts := min (simplePass 0 2400).ts 100000,
              tr := min (simplePass 0 2400).ts 100000 - 60 * 10,
              td := 60 * 10 })) :=
  ⟨by norm_num [simplePass], constrain_max_duration_spec (simplePass 0 2400) 10 0
    100000 (by norm_num [simplePass])⟩

theorem foldl_qmin_le_init (l : List ℚ) (a : ℚ) : l.foldl min a ≤ a := by
  induction l generalizing a with
  | nil => simp
  | cons x xs ih => exact le_trans (ih (min a x)) (min_le_left a x)

theorem foldl_qmin_le_mem (l : List ℚ) (a : ℚ) : ∀ x ∈ l, l.foldl min a ≤ x := by
  induction l generalizing a with
  | nil => intro x hx; cases hx
  | cons y ys ih =>
    intro x hx
    rcases List.mem_cons.1 hx with rfl | hx
    · exact le_trans (foldl_qmin_le_init ys (min a x)) (min_le_right a x)
    · exact ih (min a y) x hx

theorem foldl_qmin_mem (l : List ℚ) (a : ℚ) :
    l.foldl min a = a ∨ l.foldl min a ∈ l := by
  induction l generalizing a with
  | nil => left; rfl
  | cons y ys ih =>
    rw [List.foldl_cons]
    rcases ih (min a y) with h | h
    · rcases min_choice a y with h' | h'
      · left; rw [h, h']
      · right; rw [h, h']; exact List.mem_cons_self y ys
    · right; exact List.mem_cons_of_mem y h

theorem foldl_qmax_init_le (l : List ℚ) (a : ℚ) : a ≤ l.foldl max a := by
  induction l generalizing a with
  | nil => simp
  | cons x xs ih => exact le_trans (le_max_left a x) (ih (max a x))

theorem foldl_qmax_mem_le (l : List ℚ) (a : ℚ) : ∀ x ∈ l, x ≤ l.foldl max a := by
  induction l generalizing a with
  | nil => intro x hx; cases hx
  | cons y ys ih =>
    intro x hx
    rcases List.mem_cons.1 hx with rfl | hx
    · exact le_trans (le_max_right a x) (foldl_qmax_init_le ys (max a x))
    · exact ih (max a y) x hx

theorem foldl_qmax_mem (l : List ℚ) (a : ℚ) :
    l.foldl max a = a ∨ l.foldl max a ∈ l := by
  induction l generalizing a with
  | nil => left; rfl
  | cons y ys ih =>
    rw [List.foldl_cons]
    rcases ih (max a y) with h | h
    · rcases max_choice a y with h' | h'
      · left; rw [h, h']
      · right; rw [h, h']; exact List.mem_cons_self y ys
    · right; exact List.mem_cons_of_mem y h

theorem ite_lt_eq_min (a b : ℚ) : (if b < a then b else a) = min a b := by
  by_cases h : b < a
  · rw [if_pos h, min_eq_right h.le]
  · rw [if_neg h, min_eq_left (not_lt.1 h)]

theorem ite_gt_eq_max (a b : ℚ) : (if b > a then b else a) = max a b := by
  by_cases h : b > a
  · rw [if_pos h, max_eq_right h.le]
  · rw [if_neg h, max_eq_left (not_lt.1 h)]

/-- The accumulator of the `report_efficiency` loop after folding over
`rest`, in terms of list sum, running minimum and running maximum. -/
theorem report_efficiency_fold (rest : List SatPass) :
    ∀ d tn tx : ℚ,
      rest.foldl
        (fun (acc : ℚ × ℚ × ℚ) q =>
          (acc.1 + (q.ts - q.tr),
           if q.tr < acc.2.1 then q.tr else acc.2.1,
           if q.ts > acc.2.2 then q.ts else acc.2.2))
        (d, tn, tx) =
      (d + (rest.map fun q => q.ts - q.tr).sum,
       (rest.map SatPass.tr).foldl min tn,
       (rest.map SatPass.ts).foldl max tx) := by
  induction rest with
  | nil => intro d tn tx; simp
  | cons q qs ih =>
    intro d tn tx
    rw [List.foldl_cons, ih, List.map_cons, List.map_cons, List.map_cons,
      List.sum_cons, List.foldl_cons, List.foldl_cons,
      ite_lt_eq_min, ite_gt_eq_max]
    refine congrArg (fun z => (z, _, _)) ?_
    ring

/-- C10 (confirmed): for a non-empty schedule `report_efficiency` reports
the summed scheduled seconds, the span from the earliest rise to the
latest set, and `100 * scheduled / span`; passes of 300 s and 200 s
spanning 1000 s report 50 percent; an empty schedule reports the distinct
`none` outcome with no division performed. -/
theorem report_efficiency_spec (l : List SatPass) (h : l ≠ []) :
    report_efficiency [] = none ∧
    report_efficiency [simplePass 0 300, simplePass 800 1000] =
      some (500, 1000, 50) ∧
    ∃ tmin tmax, tmin ∈ l.map SatPass.tr ∧ (∀ q ∈ l, tmin ≤ q.tr) ∧
      tmax ∈ l.map SatPass.ts ∧ (∀ q ∈ l, q.ts ≤ tmax) ∧
      report_efficiency l =
        some ((l.map fun q => q.ts - q.tr).sum, tmax - tmin,
          100 * (l.map fun q => q.ts - q.tr).sum / (tmax - tmin)) := by
  refine ⟨rfl, by norm_num [report_efficiency, simplePass], ?_⟩
  match l, h with
  | p :: rest, _ =>
    refine ⟨(rest.map SatPass.tr).foldl min p.tr,
            (rest.map SatPass.ts).foldl max p.ts, ?_, ?_, ?_, ?_, ?_⟩
    · rcases foldl_qmin_mem (rest.map SatPass.tr) p.tr with h' | h'
      · rw [List.map_cons, h']; exact List.mem_cons_self _ _
      · rw [List.map_cons]; exact List.mem_cons_of_mem _ h'
    · intro q hq
      rcases List.mem_cons.1 hq with rfl | hq
      · exact foldl_qmin_le_init _ _
      · exact foldl_qmin_le_mem _ _ q.tr (List.mem_map_of_mem SatPass.tr hq)
    · rcases foldl_qmax_mem (rest.map SatPass.ts) p.ts with h' | h'
      · rw [List.map_cons, h']; exact List.mem_cons_self _ _
      · rw [List.map_cons]; exact List.mem_cons_of_mem _ h'
    · intro q hq
      rcases List.mem_cons.1 hq with rfl | hq
      · exact foldl_qmax_init_le _ _
      · exact foldl_qmax_mem_le _ _ q.ts (List.mem_map_of_mem SatPass.ts hq)
    · show some _ = some _
      rw [report_efficiency_fold rest (p.ts - p.tr) p.tr p.ts]
      rw [List.map_cons, List.sum_cons]

theorem report_efficiency_spec_witness :
    ([simplePass 0 300, simplePass 800 1000] : List SatPass) ≠ [] ∧
      (report_efficiency [] = none ∧
       report_efficiency [simplePass 0 300, simplePass 800 1000] =
         some (500, 1000, 50) ∧
       ∃ tmin tmax,
         tmin ∈ [simplePass 0 300, simplePass 800 1000].map SatPass.tr ∧
         (∀ q ∈ [simplePass 0 300, simplePass 800 1000], tmin ≤ q.tr) ∧
         tmax ∈ [simplePass 0 300, simplePass 800 1000].map SatPass.ts ∧
         (∀ q ∈ [simplePass 0 300, simplePass 800 1000], q.ts ≤ tmax) ∧
         report_efficiency [simplePass 0 300, simplePass 800 1000] =
           some
             (([simplePass 0 300, simplePass 800 1000].map
                fun q => q.ts - q.tr).sum,
              tmax - tmin,
              100 * (([simplePass 0 300, simplePass 800 1000].map
                fun q => q.ts - q.tr).sum) / (tmax - tmin))) :=
  ⟨by simp, report_efficiency_spec [simplePass 0 300, simplePass 800 1000] (by simp)⟩

/-- The full functional behaviour of the `get_priority_passes` loop:
the priority bucket collects the matching passes (promoted), and the
normal bucket is populated only when the `only_priority` argument is
true, with the scored non-matching passes reaching `min_priority`. -/
theorem gpp_loop_spec (allPasses : List SatPass)
    (priorities : String → Option ℚ) (fav : String → String) (op : Bool)
    (minp : ℚ) (rem : List SatPass) :
    gpp_loop allPasses priorities fav op minp rem =
      ((rem.filter (priorityMatch priorities fav minp)).map
        (promotePass priorities fav),
       if op then
         ((rem.filter fun q => !priorityMatch priorities fav minp q &&
             decide (normalScore allPasses q ≥ minp)).map
           fun q => { q with priority := some (normalScore allPasses q) })
       else []) := by
  induction rem with
  | nil => cases op <;> simp [gpp_loop]
  | cons p ps ih =>
    by_cases hm : priorityMatch priorities fav minp p
    · simp [gpp_loop, ih, hm, List.filter_cons]
    · by_cases hsc : normalScore allPasses p ≥ minp
      · cases op <;> simp [gpp_loop, ih, hm, hsc, List.filter_cons]
      · cases op <;> simp [gpp_loop, ih, hm, hsc, List.filter_cons]

/-- C3 (amended): the polarity of the `only_priority` argument is the
reverse of the claim: a pass that does not meet the priority-match
criteria is scored as `(elevation/90) * success_rate`, multiplied by
`good_count / max_good_count` when the per-satellite `max_good_count` is
positive, and appended to the normal bucket iff the score reaches
`min_priority`, precisely when `only_priority` is TRUE; when
`only_priority` is false every non-matching pass is dropped and the
normal bucket is empty. -/
theorem get_priority_passes_spec (passes : List SatPass)
    (priorities : String → Option ℚ) (fav : String → String) (op : Bool)
    (minp : ℚ) :
    (get_priority_passes passes priorities fav op minp).1 =
      (passes.filter (priorityMatch priorities fav minp)).map
        (promotePass priorities fav) ∧
    (get_priority_passes passes priorities fav false minp).2 = [] ∧
    (get_priority_passes passes priorities fav true minp).2 =
      (passes.filter fun q => !priorityMatch priorities fav minp q &&
          decide (normalScore passes q ≥ minp)).map
        fun q => { q with priority := some (normalScore passes q) } := by
  refine ⟨?_, ?_, ?_⟩
  · rw [get_priority_passes, gpp_loop_spec]
  · rw [get_priority_passes, gpp_loop_spec]; simp
  · rw [get_priority_passes, gpp_loop_spec]; simp

/-- The concrete pass used to exhibit the inverted `only_priority`
polarity: maximal elevation, success rate 1, one good observation, not a
priority satellite. -/
def scoredPassExample : SatPass :=
  { simplePass 0 600 with
    altt := 90
    satellite := { name := "S", id := "99", tle1 := "", tle2 := "" }
    transmitter := { uuid := "u", success_rate := 1, good_count := 1,
                     data_count := 1, mode := "FM" } }

/-- C3 counterexample: for a non-matching pass (no operator priority),
`get_priority_passes` with `only_priority = False` drops the pass (both
buckets empty), while with `only_priority = True` it scores it
(score `(90/90) * 1 * 1/1 = 1 ≥ 0`) and appends it to the normal bucket —
the exact opposite of the claim's description of `only_priority_mode`. -/
theorem get_priority_passes_counterexample :
    get_priority_passes [scoredPassExample] (fun _ => none) (fun _ => "f")
      false 0 = ([], []) ∧
    get_priority_passes [scoredPassExample] (fun _ => none) (fun _ => "f")
      true 0 = ([], [{ scoredPassExample with priority := some 1 }]) := by
  constructor <;>
    norm_num [get_priority_passes, gpp_loop, priorityMatch, normalScore,
      max_good_count, scoredPassExample, simplePass]

theorem overlap_mono {p : SatPass} {R R' : List SatPass} {g : ℚ}
    (h : overlap p R g = true) (hsub : ∀ x ∈ R, x ∈ R') :
    overlap p R' g = true := by
  obtain ⟨q, hq, hc⟩ := overlap_eq_true_iff.1 h
  exact overlap_eq_true_iff.2 ⟨q, hsub q hq, hc⟩

theorem overlap_self {p : SatPass} {R : List SatPass} {g : ℚ}
    (hmem : p ∈ R) (htt : p.tr < p.ts) (hg : 0 ≤ g) :
    overlap p R g = true :=
  overlap_eq_true_iff.2
    ⟨p, hmem, overlapCond_eq_true_iff.2
      (Or.inr (Or.inr (Or.inl ⟨le_refl _, by linarith⟩)))⟩

theorem ordered_scheduler_mem_mono (passes : List SatPass) :
    ∀ (R : List SatPass) (g : ℚ), ∀ x ∈ R, x ∈ ordered_scheduler passes R g := by
  induction passes with
  | nil => intro R g x hx; exact hx
  | cons p ps ih =>
    intro R g x hx
    rw [ordered_scheduler]
    by_cases h : overlap p R g = true
    · rw [if_pos h]; exact ih R g x hx
    · rw [if_neg h]; exact ih (R ++ [p]) g x (List.mem_append_left _ hx)

theorem ordered_scheduler_all_overlap (g : ℚ) (hg : 0 ≤ g) :
    ∀ (passes : List SatPass), (∀ p ∈ passes, p.tr < p.ts) →
      ∀ R, ∀ p ∈ passes, overlap p (ordered_scheduler passes R g) g = true := by
  intro passes
  induction passes with
  | nil => intro _ R p hp; cases hp
  | cons q qs ih =>
    intro hlt R p hmem
    rw [ordered_scheduler]
    rcases List.mem_cons.1 hmem with rfl | hmem'
    · by_cases h : overlap p R g = true
      · rw [if_pos h]
        exact overlap_mono h fun x hx => ordered_scheduler_mem_mono qs R g x hx
      · rw [if_neg h]
        refine overlap_self
          (ordered_scheduler_mem_mono qs (R ++ [p]) g p ?_)
          (hlt p (List.mem_cons_self p qs)) hg
        exact List.mem_append_right _ (List.mem_singleton.2 rfl)
    · have hlt' : ∀ r ∈ qs, r.tr < r.ts := fun r hr =>
        hlt r (List.mem_cons_of_mem q hr)
      by_cases h : overlap q R g = true
      · rw [if_pos h]; exact ih hlt' R p hmem'
      · rw [if_neg h]; exact ih hlt' (R ++ [q]) p hmem'

theorem ordered_scheduler_noop (passes R : List SatPass) (g : ℚ)
    (h : ∀ p ∈ passes, overlap p R g = true) :
    ordered_scheduler passes R g = R := by
  induction passes with
  | nil => rfl
  | cons p ps ih =>
    rw [ordered_scheduler, if_pos (h p (List.mem_cons_self p ps))]
    exact ih fun q hq => h q (List.mem_cons_of_mem p hq)

/-- C9 (confirmed): the greedy scheduler is idempotent — with a
non-negative guard time and genuine pass intervals, re-running
`ordered_scheduler` on the same pass list over the reservation set
produced by the first run accepts nothing further. -/
theorem ordered_scheduler_idempotent (passes R : List SatPass) (g : ℚ)
    (hg : 0 ≤ g) (hp : ∀ p ∈ passes, p.tr < p.ts) :
    ordered_scheduler passes (ordered_scheduler passes R g) g =
      ordered_scheduler passes R g :=
  ordered_scheduler_noop passes (ordered_scheduler passes R g) g
    fun p hmem => ordered_scheduler_all_overlap g hg passes hp R p hmem

theorem ordered_scheduler_idempotent_witness :
    (0 : ℚ) ≤ 0 ∧
      (∀ p ∈ [simplePass 0 10, simplePass 5 20], p.tr < p.ts) ∧
      ordered_scheduler [simplePass 0 10, simplePass 5 20]
          (ordered_scheduler [simplePass 0 10, simplePass 5 20] [] 0) 0 =
        ordered_scheduler [simplePass 0 10, simplePass 5 20] [] 0 := by
  have hp : ∀ p ∈ [simplePass 0 10, simplePass 5 20], p.tr < p.ts := by
    intro p hp
    simp only [List.mem_cons, List.not_mem_nil, or_false] at hp
    rcases hp with rfl | rfl <;> norm_num [simplePass]
  exact ⟨le_refl 0, hp,
    ordered_scheduler_idempotent [simplePass 0 10, simplePass 5 20] [] 0
      (le_refl 0) hp⟩

theorem check_az_in_full_window (az : ℚ) (hlo : 0 ≤ az) (hhi : az ≤ 360) :
    check_az_in_window az 0 360 = true := by
  rw [check_az_in_window]
  rw [if_neg (by norm_num : ¬ (0 : ℚ) > 360)]
  exact if_pos ⟨hlo, hhi⟩

/-- C6 (amended): with the window (0, 360) neither sweep ever moves a
time: on a pass whose stored rise/set azimuths and duration agree with
the trajectory (`azr` = azimuth at `tr`, `azs` = azimuth at `ts`,
`td = ts - tr`), whose trajectory azimuths at the endpoints lie in
[0, 360], and whose duration is at least the minimum,
`constrain_pass_to_az_window` returns the pass unchanged.  (It is not an
unconditional identity: a pass shorter than `min_pass_duration` is
rejected with `None` even under the full window, and the azimuth/duration
fields are always rewritten from the trajectory.) -/
theorem az_window_full_identity (azdeg : ℚ → ℚ) (p : SatPass)
    (min_pass_duration : ℚ) (fuel : ℕ)
    (h1 : 0 ≤ azdeg p.tr) (h2 : azdeg p.tr ≤ 360)
    (h3 : 0 ≤ azdeg p.ts) (h4 : azdeg p.ts ≤ 360)
    (hd : 60 * min_pass_duration ≤ p.ts - p.tr)
    (hazr : p.azr = azdeg p.tr) (hazs : p.azs = azdeg p.ts)
    (htd : p.td = p.ts - p.tr) :
    constrain_pass_to_az_window azdeg p 0 360 min_pass_duration (fuel + 1) =
      some p := by
  have hup1 : ({ p with azr := azdeg p.tr } : SatPass) = p := by rw [← hazr]
  have hup2 : ({ p with azs := azdeg p.ts } : SatPass) = p := by rw [← hazs]
  have hup3 : ({ p with td := p.ts - p.tr } : SatPass) = p := by rw [← htd]
  have hnl : ¬ p.ts - p.tr < 60 * min_pass_duration := not_lt.2 hd
  have hrise : az_sweep_rise azdeg 0 360 min_pass_duration (fuel + 1) p =
      some p := by
    rw [az_sweep_rise]
    simp only [hup1, check_az_in_full_window (azdeg p.tr) h1 h2, if_true,
      if_neg hnl]
  have hset : az_sweep_set azdeg 0 360 min_pass_duration (fuel + 1) p =
      some p := by
    rw [az_sweep_set]
    simp only [hup2, check_az_in_full_window (azdeg p.ts) h3 h4, if_true,
      if_neg hnl, hup3]
  simp only [constrain_pass_to_az_window, hrise]
  exact hset

/-- C6 counterexample: the full window (0, 360) is not "never rejecting":
a pass of 60 seconds with a one-in-window trajectory azimuth is rejected
(`None`) under a two-minute `min_pass_duration`, because the duration
floor check runs even when both endpoint azimuths are already inside the
window. -/
theorem az_window_full_identity_counterexample :
    constrain_pass_to_az_window (fun _ => 5) (simplePass 0 60) 0 360 2 5 =
      none := by
  norm_num [constrain_pass_to_az_window, az_sweep_rise, check_az_in_window,
    simplePass]

/-- A pass consistent with the constant-5-degrees trajectory: rise/set
azimuth fields 5, duration field in sync. -/
def fullWindowPassExample : SatPass :=
  { simplePass 0 600 with azr := 5, azs := 5 }

theorem az_window_full_identity_witness :
    (0 : ℚ) ≤ 5 ∧ (5 : ℚ) ≤ 360 ∧
      (60 : ℚ) * 2 ≤ (fullWindowPassExample).ts - (fullWindowPassExample).tr ∧
      (fullWindowPassExample).azr = 5 ∧ (fullWindowPassExample).azs = 5 ∧
      (fullWindowPassExample).td =
        (fullWindowPassExample).ts - (fullWindowPassExample).tr ∧
      constrain_pass_to_az_window (fun _ => 5) fullWindowPassExample 0 360 2
          (0 + 1) = some fullWindowPassExample := by
  refine ⟨by norm_num, by norm_num,
    by norm_num [fullWindowPassExample, simplePass],
    by norm_num [fullWindowPassExample, simplePass],
    by norm_num [fullWindowPassExample, simplePass],
    by norm_num [fullWindowPassExample, simplePass], ?_⟩
  exact az_window_full_identity (fun _ => 5) fullWindowPassExample 2 0
    (by norm_num) (by norm_num) (by norm_num) (by norm_num)
    (by norm_num [fullWindowPassExample, simplePass])
    (by norm_num [fullWindowPassExample, simplePass])
    (by norm_num [fullWindowPassExample, simplePass])
    (by norm_num [fullWindowPassExample, simplePass])

theorem min_separation_eq_foldl_min (sep : ℚ → ℚ) (p : SatPass) :
    min_separation_of sep p = ((sampleTimes p).map sep).foldl min 10 := by
  have hf : (fun (acc : ℚ) t => if sep t < acc then sep t else acc) =
      fun acc t => min acc (sep t) := by
    funext acc t
    exact ite_lt_eq_min acc (sep t)
  rw [min_separation_of, hf, List.foldl_map]

/-- C8 (amended): the angular-separation constraint is a pass-through
exactly when `max_separation` is None or zero (the Python truthiness test
`if max_separation:`); for a nonzero limit it samples the trajectory at
127 evenly spaced instants from `rise_time` to `set_time` inclusive,
keeps the minimum sampled separation, rejects (`None`) iff that minimum
exceeds the radian value of the limit, and otherwise returns the pass
with the rise/set times untouched.  (The hypothesis that every sampled
separation is below the sentinel 10 holds for genuine separations, which
are at most pi.) -/
theorem angular_separation_spec (sep radians : ℚ → ℚ) (paz pel m : ℚ)
    (p : SatPass) (hm : m ≠ 0)
    (hsep : ∀ t ∈ sampleTimes p, sep t < 10) :
    constrain_pass_to_angular_separation sep radians (none, paz, pel) p =
      some p ∧
    constrain_pass_to_angular_separation sep radians (some 0, paz, pel) p =
      some p ∧
    (constrain_pass_to_angular_separation sep radians (some m, paz, pel) p =
        none ↔ radians m < min_separation_of sep p) ∧
    (∀ q, constrain_pass_to_angular_separation sep radians (some m, paz, pel)
        p = some q → q = p) ∧
    (sampleTimes p).length = 127 ∧
    (sampleTimes p)[0]? = some p.tr ∧
    (sampleTimes p)[126]? = some p.ts ∧
    (∀ i : ℕ, i + 1 < 127 →
      ∃ a b, (sampleTimes p)[i]? = some a ∧
        (sampleTimes p)[i + 1]? = some b ∧
        b - a = (p.ts - p.tr) / 126) ∧
    min_separation_of sep p ∈ (sampleTimes p).map sep ∧
    (∀ s ∈ (sampleTimes p).map sep, min_separation_of sep p ≤ s) := by
  have hift : constrain_pass_to_angular_separation sep radians
      (some m, paz, pel) p =
      if min_separation_of sep p > radians m then none else some p := by
    simp only [constrain_pass_to_angular_separation, Option.getD_some]
    rw [if_pos]
    simp [hm]
  refine ⟨?_, ?_, ?_, ?_, ?_, ?_, ?_, ?_, ?_, ?_⟩
  · simp [constrain_pass_to_angular_separation]
  · simp [constrain_pass_to_angular_separation]
  · rw [hift]
    constructor
    · intro h
      by_contra hc
      rw [if_neg hc] at h
      cases h
    · intro h
      rw [if_pos h]
  · intro q h
    rw [hift] at h
    by_cases hc : min_separation_of sep p > radians m
    · rw [if_pos hc] at h; cases h
    · rw [if_neg hc] at h
      exact (Option.some_inj.1 h).symm
  · rw [sampleTimes, List.length_map, List.length_range]
  · rw [sampleTimes, List.getElem?_map, List.getElem?_range (by norm_num)]
    norm_num
  · rw [sampleTimes, List.getElem?_map, List.getElem?_range (by norm_num)]
    simp only [Option.map_some', Option.some_inj]
    push_cast
    field_simp
  · intro i hi
    refine ⟨p.tr + (i : ℚ) * (p.ts - p.tr) / 126,
      p.tr + ((i : ℚ) + 1) * (p.ts - p.tr) / 126, ?_, ?_, by ring⟩
    · rw [sampleTimes, List.getElem?_map, List.getElem?_range (by omega)]
      rfl
    · rw [sampleTimes, List.getElem?_map, List.getElem?_range hi]
      simp only [Option.map_some', Option.some_inj]
      push_cast
      ring
  · rw [min_separation_eq_foldl_min]
    rcases foldl_qmin_mem ((sampleTimes p).map sep) 10 with h | h
    · exfalso
      obtain ⟨t0, ht0⟩ := List.exists_mem_of_ne_nil (sampleTimes p)
        (by rw [sampleTimes]; simp)
      have hlt := hsep t0 ht0
      have hle := foldl_qmin_le_mem ((sampleTimes p).map sep) 10
        (sep t0) (List.mem_map_of_mem sep ht0)
      rw [h] at hle
      linarith
    · exact h
  · rw [min_separation_eq_foldl_min]
    exact foldl_qmin_le_mem ((sampleTimes p).map sep) 10

set_option maxRecDepth 4000 in
/-- C8 counterexample: `max_separation = 0.0` is a set value, yet the
constraint is a pass-through for it — the pass whose minimum sampled
separation is 1 radian (well above the limit 0) is admitted unchanged,
because the Python guard `if max_separation:` treats 0.0 like None. -/
theorem angular_separation_spec_counterexample :
    constrain_pass_to_angular_separation (fun _ => 1) (fun d => d * 157 / 9000)
      (some 0, 0, 0) (simplePass 0 600) = some (simplePass 0 600) ∧
    min_separation_of (fun _ => 1) (simplePass 0 600) = 1 := by
  constructor
  · simp [constrain_pass_to_angular_separation]
  · rw [min_separation_eq_foldl_min]
    obtain ⟨t0, ht0⟩ := List.exists_mem_of_ne_nil (sampleTimes (simplePass 0 600))
      (by rw [sampleTimes]; simp)
    have hmem : (1 : ℚ) ∈ (sampleTimes (simplePass 0 600)).map fun _ => (1 : ℚ) :=
      List.mem_map.2 ⟨t0, ht0, rfl⟩
    have hle := foldl_qmin_le_mem
      ((sampleTimes (simplePass 0 600)).map fun _ => (1 : ℚ)) 10 1 hmem
    rcases foldl_qmin_mem
        ((sampleTimes (simplePass 0 600)).map fun _ => (1 : ℚ)) 10 with h | h
    · rw [h] at hle; linarith
    · rw [List.map_const'] at h
      exact List.eq_of_mem_replicate h

theorem angular_separation_spec_witness :
    (2 : ℚ) ≠ 0 ∧
      (∀ t ∈ sampleTimes (simplePass 0 600), (fun _ => (1 : ℚ)) t < 10) ∧
      constrain_pass_to_angular_separation (fun _ => 1) (fun d => d * 157 / 9000)
        (none, 0, 0) (simplePass 0 600) = some (simplePass 0 600) ∧
      (constrain_pass_to_angular_separation (fun _ => 1)
          (fun d => d * 157 / 9000) (some 2, 0, 0) (simplePass 0 600) = none ↔
        (fun d : ℚ => d * 157 / 9000) 2 <
          min_separation_of (fun _ => 1) (simplePass 0 600)) := by
  have hm : (2 : ℚ) ≠ 0 := by norm_num
  have hs : ∀ t ∈ sampleTimes (simplePass 0 600), (fun _ => (1 : ℚ)) t < 10 :=
    fun t _ => by norm_num
  have h := angular_separation_spec (fun _ => 1) (fun d => d * 157 / 9000) 0 0 2
    (simplePass 0 600) hm hs
  exact ⟨hm, hs, h.1, h.2.2.1⟩

/-- Any pass returned by the backward set-time sweep has its duration
field equal to `ts - tr` and at least the minimum duration: both facts are
established by the checks of the loop's final iteration. -/
theorem az_sweep_set_duration (azdeg : ℚ → ℚ) (a b mind : ℚ) :
    ∀ (fuel : ℕ) (p q : SatPass),
      az_sweep_set azdeg a b mind fuel p = some q →
      q.td = q.ts - q.tr ∧ 60 * mind ≤ q.td := by
  intro fuel
  induction fuel with
  | zero =>
    intro p q h
    simp [az_sweep_set] at h
  | succ n ih =>
    intro p q h
    simp only [az_sweep_set] at h
    by_cases hw : check_az_in_window (azdeg p.ts) a b = true
    · simp only [hw, if_true] at h
      by_cases hd : p.ts - p.tr < 60 * mind
      · rw [if_pos hd] at h
        cases h
      · rw [if_neg hd] at h
        have hq := Option.some_inj.1 h
        subst hq
        exact ⟨rfl, not_lt.1 hd⟩
    · rw [Bool.not_eq_true] at hw
      simp only [hw, Bool.false_eq_true, if_false] at h
      by_cases hd : p.ts - p.tr < 60 * mind
      · rw [if_pos hd] at h
        cases h
      · rw [if_neg hd] at h
        exact ih _ q h

/-- The azimuth-window constraint ends with the set-time sweep, so its
survivors inherit the duration invariant. -/
theorem constrain_az_window_some_duration (azdeg : ℚ → ℚ) (a b mind : ℚ)
    (fuel : ℕ) (p q : SatPass)
    (h : constrain_pass_to_az_window azdeg p a b mind fuel = some q) :
    q.td = q.ts - q.tr ∧ 60 * mind ≤ q.td := by
  rw [constrain_pass_to_az_window] at h
  cases hr : az_sweep_rise azdeg a b mind fuel p with
  | none => rw [hr] at h; cases h
  | some p1 =>
    rw [hr] at h
    exact az_sweep_set_duration azdeg a b mind fuel p1 q h

/-- The angular-separation constraint never modifies a surviving pass. -/
theorem constrain_angular_some_eq (sep radians : ℚ → ℚ)
    (angsep : Option ℚ × ℚ × ℚ) (p q : SatPass)
    (h : constrain_pass_to_angular_separation sep radians angsep p = some q) :
    q = p := by
  simp only [constrain_pass_to_angular_separation] at h
  split at h
  · split at h
    · cases h
    · exact (Option.some_inj.1 h).symm
  · exact (Option.some_inj.1 h).symm

/-- The maximum-duration constraint preserves the duration invariant:
its result has `td = ts - tr`, and the duration stays at least
`60 * mind` whenever the input satisfied the invariant and
`mind ≤ maxd`. -/
theorem constrain_max_duration_bound (p : SatPass) (maxd tmin tmax mind : ℚ)
    (hcons : p.td = p.ts - p.tr) (hmin : 60 * mind ≤ p.td) (hmm : mind ≤ maxd) :
    (constrain_pass_to_max_observation_duration p maxd tmin tmax).td =
      (constrain_pass_to_max_observation_duration p maxd tmin tmax).ts -
        (constrain_pass_to_max_observation_duration p maxd tmin tmax).tr ∧
    60 * mind ≤ (constrain_pass_to_max_observation_duration p maxd tmin tmax).td := by
  simp only [constrain_pass_to_max_observation_duration]
  by_cases hgt : p.td > 60 * maxd
  · rw [if_pos hgt]
    by_cases hfit : p.tr + (p.td - 60 * maxd) / 2 ≥ tmin ∧
        p.ts - (p.td - 60 * maxd) / 2 ≤ tmax
    · rw [if_pos hfit]
      refine ⟨rfl, ?_⟩
      have hval : p.ts - (p.td - 60 * maxd) / 2 -
          (p.tr + (p.td - 60 * maxd) / 2) = 60 * maxd := by
        rw [hcons]
        ring
      show 60 * mind ≤ p.ts - (p.td - 60 * maxd) / 2 -
        (p.tr + (p.td - 60 * maxd) / 2)
      rw [hval]
      linarith
    · rw [if_neg hfit]
      refine ⟨rfl, ?_⟩
      show 60 * mind ≤ min p.ts tmax - (min p.ts tmax - 60 * maxd)
      have hval : min p.ts tmax - (min p.ts tmax - 60 * maxd) = 60 * maxd := by
        ring
      rw [hval]
      linarith
  · rw [if_neg hgt]
    exact ⟨hcons, hmin⟩

/-- The constraint chain of `find_constrained_passes` establishes the
duration invariant on every survivor. -/
theorem apply_constraints_some_duration (azdeg sep radians : ℚ → ℚ)
    (c : Constraints) (fuel : ℕ) (p q : SatPass)
    (hmm : c.min_pass_duration ≤ c.max_pass_duration)
    (h : apply_constraints azdeg sep radians c fuel p = some q) :
    q.td = q.ts - q.tr ∧ 60 * c.min_pass_duration ≤ q.td := by
  rw [apply_constraints] at h
  cases haz : constrain_pass_to_az_window azdeg p c.start_azimuth
      c.stop_azimuth c.min_pass_duration fuel with
  | none => rw [haz] at h; cases h
  | some p1 =>
    simp only [haz] at h
    obtain ⟨hp1, hp1d⟩ := constrain_az_window_some_duration azdeg
      c.start_azimuth c.stop_azimuth c.min_pass_duration fuel p p1 haz
    cases hsep : constrain_pass_to_angular_separation sep radians
        c.angular_separation p1 with
    | none => simp only [hsep] at h; cases h
    | some p2 =>
      simp only [hsep] at h
      have hp2 : p2 = p1 := constrain_angular_some_eq sep radians
        c.angular_separation p1 p2 hsep
      have hq := Option.some_inj.1 h
      subst hq
      subst hp2
      exact constrain_max_duration_bound p2 c.max_pass_duration c.tmin c.tmax
        c.min_pass_duration hp1 hp1d hmm

/-- C4 (amended): for every configuration with
`min_pass_duration ≤ max_pass_duration`, every pass in the output of
`find_constrained_passes` has its duration field equal to
`set_time - rise_time` and at least `60 * min_pass_duration` seconds (in
particular positive whenever the minimum is positive).  The claim's
`rise_time < transit_time < set_time` part does not hold: the
maximum-duration stage shrinks symmetrically around the interval
midpoint, not the culmination, and can move `rise_time` past the
untouched `transit_time` (see the counterexample). -/
theorem find_constrained_passes_duration (nextPass : ℚ → Option PassEvent)
    (azdeg sep radians : ℚ → ℚ) (sat : Satellite) (c : Constraints)
    (fuel : ℕ) (hmm : c.min_pass_duration ≤ c.max_pass_duration) :
    ∀ q ∈ find_constrained_passes nextPass azdeg sep radians sat c fuel,
      q.td = q.ts - q.tr ∧ 60 * c.min_pass_duration ≤ q.td := by
  rw [find_constrained_passes]
  generalize find_passes nextPass sat c.tmin c.tmax c.min_culmination
    c.min_pass_duration fuel = L
  have hgen : ∀ (M acc : List SatPass),
      (∀ x ∈ acc, x.td = x.ts - x.tr ∧ 60 * c.min_pass_duration ≤ x.td) →
      ∀ q ∈ M.foldl
        (fun selected_passes satpass =>
          match apply_constraints azdeg sep radians c fuel satpass with
          | none => selected_passes
          | some satpass => selected_passes ++ [annotate satpass sat]) acc,
        q.td = q.ts - q.tr ∧ 60 * c.min_pass_duration ≤ q.td := by
    intro M
    induction M with
    | nil => intro acc hacc q hq; exact hacc q hq
    | cons p ps ih =>
      intro acc hacc q hq
      rw [List.foldl_cons] at hq
      cases happ : apply_constraints azdeg sep radians c fuel p with
      | none =>
        rw [happ] at hq
        exact ih acc hacc q hq
      | some p3 =>
        rw [happ] at hq
        refine ih (acc ++ [annotate p3 sat]) ?_ q hq
        intro x hx
        rcases List.mem_append.1 hx with hx | hx
        · exact hacc x hx
        · rw [List.mem_singleton.1 hx]
          have h3 := apply_constraints_some_duration azdeg sep radians c fuel
            p p3 hmm happ
          exact ⟨h3.1, h3.2⟩
  exact hgen L [] (by intro x hx; cases hx)

/-- The satellite of the C4 counterexample. -/
def cexSat : Satellite :=
  { name := "SAT", id := "99", tle1 := "L1", tle2 := "L2",
    transmitter := "uuid", success_rate := 1, good_count := 1,
    data_count := 1, mode := "FM" }

/-- The single pass event of the C4 counterexample: culmination 60 s
after rise, set 6000 s after rise (a pass with its transit near the
start). -/
def cexEvent : PassEvent :=
  { tr := 0, azr := 10, tt := 60, altt := 45, ts := 6000, azs := 20 }

/-- The propagator of the C4 counterexample: one pass at the start of
the horizon, then nothing. -/
def cexNextPass : ℚ → Option PassEvent :=
  fun date => if date = 0 then some cexEvent else none

/-- The C4 counterexample configuration: full azimuth window, no angular
separation limit, 1-minute minimum and 10-minute maximum duration. -/
def cexConstraints : Constraints :=
  { tmin := 0, tmax := 100000, min_pass_duration := 1,
    max_pass_duration := 10, start_azimuth := 0, stop_azimuth := 360,
    min_culmination := 0, angular_separation := (none, 0, 0) }

/-- The pass the pipeline outputs on the C4 counterexample input: the
maximum-duration stage shrank [0, 6000] symmetrically to [2700, 3300],
far past the culmination time 60. -/
def cexBadPass : SatPass :=
  { tr := 2700, azr := 50, tt := 60, altt := 45, ts := 3300, td := 600,
    azs := 50,
    transmitter := { uuid := "uuid", success_rate := 1, good_count := 1,
                     data_count := 1, mode := "FM" },
    satellite := { name := "SAT", id := "99", tle1 := "L1", tle2 := "L2" },
    priority := none, scheduled := false }

/-- C4 counterexample: on a valid configuration
(`min_pass_duration = 1 ≤ 10 = max_pass_duration`) the pipeline emits a
pass with `transit_time < rise_time`, violating the claimed
`rise_time < transit_time < set_time` invariant. -/
theorem find_constrained_passes_duration_counterexample :
    cexConstraints.min_pass_duration ≤ cexConstraints.max_pass_duration ∧
    find_constrained_passes cexNextPass (fun _ => 50) (fun _ => 1)
      (fun d => d * 157 / 9000) cexSat cexConstraints 3 = [cexBadPass] ∧
    ¬ (cexBadPass.tr < cexBadPass.tt) := by
  refine ⟨by norm_num [cexConstraints], ?_, by norm_num [cexBadPass]⟩
  norm_num [find_constrained_passes, find_passes, find_passes_loop,
    apply_constraints, mkFindPass, constrain_pass_to_az_window, az_sweep_rise,
    az_sweep_set, check_az_in_window, constrain_pass_to_angular_separation,
    constrain_pass_to_max_observation_duration, annotate, cexSat,
    cexConstraints, cexNextPass, cexEvent, cexBadPass]

theorem find_constrained_passes_duration_witness :
    cexConstraints.min_pass_duration ≤ cexConstraints.max_pass_duration ∧
      ∀ q ∈ find_constrained_passes cexNextPass (fun _ => 50) (fun _ => 1)
          (fun d => d * 157 / 9000) cexSat cexConstraints 3,
        q.td = q.ts - q.tr ∧ 60 * cexConstraints.min_pass_duration ≤ q.td :=
  ⟨by norm_num [cexConstraints],
    find_constrained_passes_duration cexNextPass (fun _ => 50) (fun _ => 1)
      (fun d => d * 157 / 9000) cexSat cexConstraints 3
      (by norm_num [cexConstraints])⟩

end AutoSched
